import Mathlib

/-!
Shallow embedding of the NESL_IT_MERN_TEST social-network API core:
the follow-graph controller (`follows.controller.js`), the posts
controller (`posts.controller.js`), the JWT authorization middleware
(`middleware/authorize` in `validator.js`), the Joi request validators
(`post.validators.js`), and the MongoDB feed aggregation pipeline
(`db/aggregation.js`).

Conventions of the embedding:
- JS string ids stay `String`; `Date` values become `Nat` timestamps
  (only their ordering and equality matter to the code).
- The process-wide mutable stores (`users`, `posts`, `follows` model
  modules) become an explicit state record `St` threaded through the
  operations.  Mutating controllers return `(Except ApiError payload) × St`,
  read-only controllers return `Except ApiError value`.
- Each early `return res.status(..).json({code: ..})` becomes an
  `ApiError` constructor named after the JS `code` string.
- JS `Array.prototype.sort` with a comparator on `created` is a stable
  sort; it is embedded as `List.insertionSort`, which is stable.
-/

namespace Social

/-- Account row of the in-memory `users` model (`user.model.js`).
The seeded rows carry no `isDeleted` field (JS reads it as `undefined`,
i.e. falsy); the embedding materializes it as a `Bool`. -/
structure User where
  id : String
  name : String
  email : String
  role : String
  isActive : Bool
  isDeleted : Bool
deriving DecidableEq, Repr

/-- Follow edge row of the `follows` model (`follows.models.js`).
`updatedAt` is absent until `unfollowUser` sets it, hence `Option`. -/
structure Follow where
  id : String
  follower : String
  following : String
  created : Nat
  updatedAt : Option Nat
  isDeleted : Bool
deriving DecidableEq, Repr

/-- Post row of the `posts` model. -/
structure Post where
  id : String
  author : String
  content : String
  created : Nat
  updatedAt : Nat
  isDeleted : Bool
deriving DecidableEq, Repr

/-- The three process-wide mutable stores. -/
structure St where
  users : List User
  posts : List Post
  follows : List Follow
deriving DecidableEq, Repr

/-- Error responses of the controllers and middleware, named after the
JS `code` strings.  `validationError` carries the Joi message. -/
inductive ApiError where
  | selfFollowError
  | selfUnfollowError
  | userNotFound
  | alreadyFollowing
  | notFollowing
  | postNotFound
  | deletePermissionDenied
  | invalidPagination
  | validationError (msg : String)
  | getFollowersInternalError
  | getFollowingInternalError
  | authHeaderError
  | tokenVerificationError
  | insufficientPermissions (requiredRoles : List String) (userRole : String)
deriving DecidableEq, Repr

/-- HTTP status code attached to each error response in the source. -/
def statusOf : ApiError → Nat
  | .selfFollowError => 400
  | .selfUnfollowError => 400
  | .userNotFound => 404
  | .alreadyFollowing => 400
  | .notFollowing => 400
  | .postNotFound => 404
  | .deletePermissionDenied => 403
  | .invalidPagination => 400
  | .validationError _ => 400
  | .getFollowersInternalError => 500
  | .getFollowingInternalError => 500
  | .authHeaderError => 401
  | .tokenVerificationError => 401
  | .insufficientPermissions _ _ => 403

/-- The active-edge predicate for the ordered pair (follower a, following b),
as written in `followUser`, `unfollowUser` and `checkFollowStatus`:
`f.follower === a && f.following === b && !f.isDeleted`. -/
def isActivePair (a b : String) (f : Follow) : Bool :=
  f.follower == a && f.following == b && !f.isDeleted

/-- Lookup of a non-deleted user, `users.find(u => u.id === userId && !u.isDeleted)`. -/
def findActiveUser (userId : String) (s : St) : Option User :=
  s.users.find? (fun u => u.id == userId && !u.isDeleted)

/-- JS `follows.findIndex(pred)` followed by the in-place soft delete
`follows[i].isDeleted = true; follows[i].updatedAt = new Date()`:
replaces the first edge matching `p` by its soft-deleted copy and
returns the matched edge (pre-mutation) together with the new list. -/
def softDeleteFirstFollow (p : Follow → Bool) (now : Nat) :
    List Follow → Option (Follow × List Follow)
  | [] => none
  | f :: rest =>
    if p f then some (f, { f with isDeleted := true, updatedAt := some now } :: rest)
    else (softDeleteFirstFollow p now rest).map (fun r => (r.1, f :: r.2))

/-- `followUser` (follows.controller.js): self-check, target existence,
duplicate-active-edge check, then push a fresh edge. -/
def followUser (currentUserId userId : String) (now : Nat) (s : St) :
    (Except ApiError Follow) × St :=
  if currentUserId == userId then (.error .selfFollowError, s)
  else
    match findActiveUser userId s with
    | none => (.error .userNotFound, s)
    | some _ =>
      if (s.follows.find? (isActivePair currentUserId userId)).isSome then
        (.error .alreadyFollowing, s)
      else
        let newFollow : Follow :=
          { id := "f" ++ toString (s.follows.length + 1)
            follower := currentUserId
            following := userId
            created := now
            updatedAt := none
            isDeleted := false }
        (.ok newFollow, { s with follows := s.follows ++ [newFollow] })

/-- `unfollowUser` (follows.controller.js): self-check, target existence,
find the first active edge for the pair and soft-delete it in place. -/
def unfollowUser (currentUserId userId : String) (now : Nat) (s : St) :
    (Except ApiError Follow) × St :=
  if currentUserId == userId then (.error .selfUnfollowError, s)
  else
    match findActiveUser userId s with
    | none => (.error .userNotFound, s)
    | some _ =>
      match softDeleteFirstFollow (isActivePair currentUserId userId) now s.follows with
      | none => (.error .notFollowing, s)
      | some (f, follows') => (.ok f, { s with follows := follows' })

/-- Result payload of `checkFollowStatus`. -/
structure FollowStatus where
  isFollowing : Bool
  targetUser : User
deriving DecidableEq, Repr

/-- `checkFollowStatus` (follows.controller.js):
`follows.some(f => f.follower === currentUser.id && f.following === userId && !f.isDeleted)`. -/
def checkFollowStatus (currentUserId userId : String) (s : St) :
    Except ApiError FollowStatus :=
  match findActiveUser userId s with
  | none => .error .userNotFound
  | some u => .ok { isFollowing := s.follows.any (isActivePair currentUserId userId)
                    targetUser := u }

/-- Result payload of `getFollowStats`. -/
structure FollowStats where
  followersCount : Nat
  followingCount : Nat
deriving DecidableEq, Repr

/-- `getFollowStats` (follows.controller.js): counts of active edges
pointing at / leaving the user. -/
def getFollowStats (userId : String) (s : St) : Except ApiError FollowStats :=
  match findActiveUser userId s with
  | none => .error .userNotFound
  | some _ =>
    .ok { followersCount := (s.follows.filter (fun f => f.following == userId && !f.isDeleted)).length
          followingCount := (s.follows.filter (fun f => f.follower == userId && !f.isDeleted)).length }

/-- One entry of the followers / following page: the edge id plus the
projected counterpart account. -/
structure CounterpartDetail where
  edgeId : String
  counterpartId : String
  counterpartName : String
  counterpartEmail : String
  counterpartRole : String
deriving DecidableEq, Repr

/-- The `userFollowers.map(follow => { const follower = users.find(...);
return { id, follower: { id: follower.id, ... } } })` step of
`getFollowers` / `getFollowing`.  When the counterpart account cannot be
resolved, `users.find` yields `undefined` and `follower.id` throws a
TypeError, aborting the whole map; the controller's `catch` turns that
into the 500 response.  The abort is modelled by `none`.  (The JS
`.filter(f => f.follower)` placed after the map can therefore never
remove anything: the map has already thrown on any unresolvable edge.) -/
def lookupCounterparts (users : List User) (counterpartOf : Follow → String) :
    List Follow → Option (List CounterpartDetail)
  | [] => some []
  | f :: rest =>
    match users.find? (fun u => u.id == counterpartOf f && !u.isDeleted) with
    | none => none
    | some u =>
      (lookupCounterparts users counterpartOf rest).map
        (fun ds => { edgeId := f.id
                     counterpartId := u.id
                     counterpartName := u.name
                     counterpartEmail := u.email
                     counterpartRole := u.role } :: ds)

/-- Pagination block attached to the followers / following pages. -/
structure PageInfo where
  page : Int
  limit : Int
  total : Nat
  pages : Nat
deriving DecidableEq, Repr

/-- Followers / following page payload. -/
structure CounterpartPage where
  rows : List CounterpartDetail
  pageInfo : PageInfo
deriving DecidableEq, Repr

/-- JS `list.slice(skip, skip + limitNum)` for the non-negative `skip`
produced by a validated `page ≥ 1`, `limit ≥ 1`. -/
def sliceAt (l : List CounterpartDetail) (skip : Nat) (limitNum : Nat) :
    List CounterpartDetail :=
  (l.drop skip).take limitNum

/-- `getFollowers` (follows.controller.js): user existence check, filter
of active incoming edges, counterpart lookup (which can throw, see
`lookupCounterparts`), then pagination.  `page` and `limit` are the
already-parsed query integers. -/
def getFollowers (userId : String) (page limit : Int) (s : St) :
    Except ApiError CounterpartPage :=
  match findActiveUser userId s with
  | none => .error .userNotFound
  | some _ =>
    let userFollowers := s.follows.filter (fun f => f.following == userId && !f.isDeleted)
    match lookupCounterparts s.users (fun f => f.follower) userFollowers with
    | none => .error .getFollowersInternalError
    | some details =>
      let limitNum : Int := min limit 50
      let skip : Int := (page - 1) * limitNum
      .ok { rows := sliceAt details skip.toNat limitNum.toNat
            pageInfo := { page := page
                          limit := limitNum
                          total := details.length
                          pages := (details.length + limitNum.toNat - 1) / limitNum.toNat } }

/-- `getFollowing` (follows.controller.js): mirror image of
`getFollowers` over outgoing edges. -/
def getFollowing (userId : String) (page limit : Int) (s : St) :
    Except ApiError CounterpartPage :=
  match findActiveUser userId s with
  | none => .error .userNotFound
  | some _ =>
    let userFollowing := s.follows.filter (fun f => f.follower == userId && !f.isDeleted)
    match lookupCounterparts s.users (fun f => f.following) userFollowing with
    | none => .error .getFollowingInternalError
    | some details =>
      let limitNum : Int := min limit 50
      let skip : Int := (page - 1) * limitNum
      .ok { rows := sliceAt details skip.toNat limitNum.toNat
            pageInfo := { page := page
                          limit := limitNum
                          total := details.length
                          pages := (details.length + limitNum.toNat - 1) / limitNum.toNat } }

/-- Modelled from the spec: the repository's `validators/follow.validator.js`
(the `followQuerySchema` applied by `follows.routes.js` to the followers
and following routes) is not among the provided sources; only its caller
is.  Section 4.6 (PaginationPolicy) of the spec states that `page`
defaults to 1 with minimum 1, `limit` defaults to 10 and is clamped to
[1,50], and that violating the bounds (page<1 or limit<1) is always
`InvalidPagination`, reported before any data access. -/
def followQueryValidate (page limit : Int) : Option ApiError :=
  if page < 1 || limit < 1 then some .invalidPagination else none

/-- The `GET /follows/followers/:userId` route: the (spec-modelled)
query validator runs before the controller. -/
def getFollowersRoute (userId : String) (page limit : Int) (s : St) :
    Except ApiError CounterpartPage :=
  match followQueryValidate page limit with
  | some e => .error e
  | none => getFollowers userId page limit s

/-- The `GET /follows/following/:userId` route. -/
def getFollowingRoute (userId : String) (page limit : Int) (s : St) :
    Except ApiError CounterpartPage :=
  match followQueryValidate page limit with
  | some e => .error e
  | none => getFollowing userId page limit s

/-- Principal attached to the request by the authorization middleware:
`req.user = { id: decoded.id, role: decoded.role, name: decoded.name }`. -/
structure Principal where
  id : String
  role : String
  name : String
deriving DecidableEq, Repr

/-- Claim set carried by a verified token, as read by the middleware. -/
structure Claims where
  id : String
  role : String
  name : String
deriving DecidableEq, Repr

/-- Split of a character list at every occurrence of `sep`, keeping
empty segments, mirroring the JS `String.prototype.split(' ')` on a
one-character separator. -/
def splitChar (sep : Char) : List Char → List (List Char)
  | [] => [[]]
  | c :: rest =>
    let r := splitChar sep rest
    if c == sep then [] :: r
    else
      match r with
      | g :: gs => (c :: g) :: gs
      | [] => [[c]]

/-- JS `value.split(' ')` as a `String` operation. -/
def jsSplitSpace (s : String) : List String :=
  (splitChar ' ' s.toList).map String.mk

/-- `extractTokenFromHeader` (middleware/jwt.js): a falsy header is
"missing"; otherwise the value must split on single spaces into exactly
two parts, the first literally "Bearer". -/
def extractTokenFromHeader : Option String → Except String String
  | none => .error "Authorization header missing"
  | some v =>
    if v == "" then .error "Authorization header missing"
    else
      let parts := jsSplitSpace v
      if parts.length != 2 || parts.head? != some "Bearer" then
        .error "Invalid authorization header format"
      else .ok (parts.getD 1 "")

/-- Projection of verified claims onto the request principal. -/
def mkPrincipal (c : Claims) : Principal :=
  { id := c.id, role := c.role, name := c.name }

/-- `authorize(roles = [])` (middleware/authorize): extract the bearer
token, verify it, then check the role only when the allowed-roles list
is non-empty.  Token verification wraps the external `jsonwebtoken`
library, so it is a parameter `verify` of the embedding. -/
def authorize (roles : List String) (verify : String → Except String Claims)
    (authHeader : Option String) : Except ApiError Principal :=
  match extractTokenFromHeader authHeader with
  | .error _ => .error .authHeaderError
  | .ok token =>
    match verify token with
    | .error _ => .error .tokenVerificationError
    | .ok decoded =>
      if roles.length > 0 && !(roles.contains decoded.role) then
        .error (.insufficientPermissions roles decoded.role)
      else .ok (mkPrincipal decoded)

/-- The Joi `postIdSchema` pattern `^[a-zA-Z0-9_-]+$`. -/
def postIdWf (id : String) : Bool :=
  id.length > 0 && id.toList.all (fun c => c.isAlphanum || c == '_' || c == '-')

/-- `validate(postIdSchema)` on the `:id` route parameter. -/
def validatePostId (id : String) : Option ApiError :=
  if postIdWf id then none
  else some (.validationError "Post ID contains invalid characters. Only letters, numbers, hyphens, and underscores are allowed.")

/-- `validate(createPostSchema)` (post.validators.js): Joi checks the
raw, untrimmed body string with `.min(1).max(1000).required()`; the
schema carries no `.trim()`, so lengths are lengths of the raw value. -/
def validateCreatePost (content : String) : Option ApiError :=
  if content.length == 0 then some (.validationError "Post content cannot be empty")
  else if content.length > 1000 then
    some (.validationError "Post content cannot exceed 1000 characters")
  else none

/-- Whitespace class of the JS `String.prototype.trim` for the
character range exercised by this API (space, tab, and line breaks). -/
def jsWsChar (c : Char) : Bool :=
  c == ' ' || c == '\t' || c == '\n' || c == '\r'

/-- JS `content.trim()`: strip leading and trailing whitespace. -/
def jsTrim (s : String) : String :=
  String.mk (((s.toList.dropWhile jsWsChar).reverse.dropWhile jsWsChar).reverse)

/-- JS in-place soft delete of the first post matching `pr`
(`posts[postIndex].isDeleted = true; posts[postIndex].updatedAt = new Date()`),
returning the matched post (pre-mutation) and the updated list. -/
def softDeleteFirstPost (pr : Post → Bool) (now : Nat) :
    List Post → Option (Post × List Post)
  | [] => none
  | p :: rest =>
    if pr p then some (p, { p with isDeleted := true, updatedAt := now } :: rest)
    else (softDeleteFirstPost pr now rest).map (fun r => (r.1, p :: r.2))

/-- Response payload of `deletePost`. -/
structure DeletedPayload where
  id : String
  author : String
  content : String
  created : Nat
  deletedAt : Nat
deriving DecidableEq, Repr

/-- `deletePost` (posts.controller.js): find the first non-deleted post
with the id (404 if none), then the controller's own permission check —
`user.role !== 'admin' && post.author !== user.id` → 403 — then the
in-place soft delete. -/
def deletePost (id : String) (user : Principal) (now : Nat) (s : St) :
    (Except ApiError DeletedPayload) × St :=
  match softDeleteFirstPost (fun p => p.id == id && !p.isDeleted) now s.posts with
  | none => (.error .postNotFound, s)
  | some (p, posts') =>
    if user.role != "admin" && p.author != user.id then
      (.error .deletePermissionDenied, s)
    else
      (.ok { id := p.id, author := p.author, content := p.content
             created := p.created, deletedAt := now },
       { s with posts := posts' })

/-- The `DELETE /posts/:id` route (posts routes): `requireAdmin`
(`authorize(['admin'])`), then `validate(postIdSchema)`, then the
controller. -/
def deletePostRoute (verify : String → Except String Claims)
    (authHeader : Option String) (id : String) (now : Nat) (s : St) :
    (Except ApiError DeletedPayload) × St :=
  match authorize ["admin"] verify authHeader with
  | .error e => (.error e, s)
  | .ok user =>
    match validatePostId id with
    | some e => (.error e, s)
    | none => deletePost id user now s

/-- `createPost` (posts.controller.js): unconditional push of
`{ id: p${Date.now()}, author: user.id, content: content.trim(), ... }`. -/
def createPost (user : Principal) (content : String) (now : Nat) (s : St) :
    (Except ApiError Post) × St :=
  let newPost : Post :=
    { id := "p" ++ toString now
      author := user.id
      content := jsTrim content
      created := now
      updatedAt := now
      isDeleted := false }
  (.ok newPost, { s with posts := s.posts ++ [newPost] })

/-- The `POST /posts` route after the auth gate has resolved the
principal: `validate(createPostSchema)` then the controller. -/
def createPostPipeline (user : Principal) (content : String) (now : Nat) (s : St) :
    (Except ApiError Post) × St :=
  match validateCreatePost content with
  | some e => (.error e, s)
  | none => createPost user content now s

/-- Projection of a post in the `GET /posts` listing. -/
structure PostView where
  id : String
  author : String
  content : String
  created : Nat
deriving DecidableEq, Repr

/-- Pagination block of the `GET /posts` response. -/
structure PostsPagination where
  currentPage : Int
  totalPages : Nat
  totalPosts : Nat
  postsPerPage : Int
  hasNextPage : Bool
  hasPrevPage : Bool
deriving DecidableEq, Repr

/-- `GET /posts` response payload. -/
structure PostsPage where
  posts : List PostView
  pagination : PostsPagination
deriving DecidableEq, Repr

/-- Comparator order of the JS
`sort((a, b) => (new Date(a.created) - new Date(b.created)) * -1)`:
descending by `created`. -/
def postDesc (a b : Post) : Prop := b.created ≤ a.created

/-- Ascending comparator order (`sortOrder` other than "desc"). -/
def postAsc (a b : Post) : Prop := a.created ≤ b.created

instance : DecidableRel postDesc :=
  fun a b => inferInstanceAs (Decidable (b.created ≤ a.created))

instance : DecidableRel postAsc :=
  fun a b => inferInstanceAs (Decidable (a.created ≤ b.created))

instance : IsTotal Post postDesc :=
  ⟨fun a b => Nat.le_total b.created a.created⟩

instance : IsTrans Post postDesc :=
  ⟨fun _ _ _ h1 h2 => Nat.le_trans h2 h1⟩

instance : IsTotal Post postAsc :=
  ⟨fun a b => Nat.le_total a.created b.created⟩

instance : IsTrans Post postAsc :=
  ⟨fun _ _ _ h1 h2 => Nat.le_trans h1 h2⟩

/-- `getAllPosts` (posts.controller.js): pagination guard first, then
filter of non-deleted posts, optional exact author filter, stable sort
by `created`, then the slice.  `page` and `limit` are the parsed query
integers; the unused `sortBy` query parameter is omitted. -/
def getAllPosts (page limit : Int) (author : Option String) (sortOrder : String)
    (s : St) : Except ApiError PostsPage :=
  let pageNum := page
  let limitNum := min limit 50
  if pageNum < 1 || limitNum < 1 then .error .invalidPagination
  else
    let filtered := s.posts.filter (fun p => !p.isDeleted)
    let filtered := match author with
      | some a => filtered.filter (fun p => p.author == a)
      | none => filtered
    let sorted := if sortOrder == "desc" then List.insertionSort postDesc filtered
                  else List.insertionSort postAsc filtered
    let totalPosts := filtered.length
    let totalPages := (totalPosts + limitNum.toNat - 1) / limitNum.toNat
    let skip := ((pageNum - 1) * limitNum).toNat
    let paginated := (sorted.drop skip).take limitNum.toNat
    .ok { posts := paginated.map (fun p =>
            { id := p.id, author := p.author, content := p.content, created := p.created })
          pagination := { currentPage := pageNum
                          totalPages := totalPages
                          totalPosts := totalPosts
                          postsPerPage := limitNum
                          hasNextPage := pageNum < (totalPages : Int)
                          hasPrevPage := pageNum > 1 } }

/-- `getPostById` (posts.controller.js):
`posts.find(post => post.id === id && !post.isDeleted)`. -/
def getPostById (id : String) (s : St) : Except ApiError Post :=
  match s.posts.find? (fun p => p.id == id && !p.isDeleted) with
  | none => .error .postNotFound
  | some p => .ok p

/-- Output row of the feed aggregation `$project` stage:
`{ _id, content, created, authorName }`. -/
structure FeedEntry where
  postId : String
  content : String
  created : Nat
  authorName : String
deriving DecidableEq, Repr

/-- Order of the feed `$sort: { created: -1 }` stage: descending by
`created`; no secondary sort key appears in the pipeline. -/
def feedDesc (a b : FeedEntry) : Prop := b.created ≤ a.created

instance : DecidableRel feedDesc :=
  fun a b => inferInstanceAs (Decidable (b.created ≤ a.created))

instance : IsTotal FeedEntry feedDesc :=
  ⟨fun a b => Nat.le_total b.created a.created⟩

instance : IsTrans FeedEntry feedDesc :=
  ⟨fun _ _ _ h1 h2 => Nat.le_trans h2 h1⟩

/-- `getFollowingsPosts` (db/aggregation.js), the feed pipeline run on
the `follows` collection: `$match {follower: userId}` (no `isDeleted`
condition appears anywhere in the pipeline), `$lookup` + `$unwind` of
posts by author, `$lookup` + `$unwind` of the author account (an entry
is dropped when no account matches, per
`preserveNullAndEmptyArrays: false`), `$project`, `$sort {created: -1}`,
`$limit 10`. -/
def getFollowingsPosts (userId : String) (s : St) : List FeedEntry :=
  let matched := s.follows.filter (fun f => f.follower == userId)
  let withPosts := matched.flatMap (fun f => s.posts.filter (fun p => p.author == f.following))
  let withAuthor := withPosts.flatMap (fun p =>
    (s.users.filter (fun u => u.id == p.author)).map (fun u =>
      ({ postId := p.id, content := p.content, created := p.created
         authorName := u.name } : FeedEntry)))
  (List.insertionSort feedDesc withAuthor).take 10

/-- The authors followed by `userId` as read off the follow store by the
feed's `$match` stage (which carries no `isDeleted` condition). -/
def followedSet (userId : String) (s : St) : List String :=
  (s.follows.filter (fun f => f.follower == userId)).map (fun f => f.following)

/-- Lexicographic order on character lists by code point, the order in
which MongoDB compares string ids; used to state the tie-break claim
about the feed. -/
def charListLt : List Char → List Char → Bool
  | [], [] => false
  | [], _ :: _ => true
  | _ :: _, [] => false
  | c :: cs, d :: ds =>
    if c.val < d.val then true
    else if d.val < c.val then false
    else charListLt cs ds

/-- `strLt a b` means id `a` sorts strictly before id `b`. -/
def strLt (a b : String) : Bool :=
  charListLt a.toList b.toList

/-- The store with soft-deleted posts physically erased; used to state
that reads cannot distinguish soft-deleted rows from absent ones. -/
def erasePostsDeleted (s : St) : St :=
  { s with posts := s.posts.filter (fun p => !p.isDeleted) }

/-- The store with soft-deleted follow edges physically erased. -/
def eraseFollowsDeleted (s : St) : St :=
  { s with follows := s.follows.filter (fun f => !f.isDeleted) }

/-- Invariant: no active edge is a self-follow. -/
def NoSelfActive (l : List Follow) : Prop :=
  ∀ f ∈ l, f.isDeleted = false → f.follower ≠ f.following

/-- Invariant: each ordered (follower, following) pair has at most one
active edge. -/
def AtMostOneActivePair (l : List Follow) : Prop :=
  ∀ a b : String, l.countP (isActivePair a b) ≤ 1

/-! ## Concrete fixtures for closed instances -/

/-- Token verifier fixture resolving "tok" to a user-role principal. -/
def wVerifyUser : String → Except String Claims := fun t =>
  if t == "tok" then .ok { id := "u2", role := "user", name := "Jane" }
  else .error "Invalid token"

/-- Token verifier fixture resolving "tok" to an admin-role principal. -/
def wVerifyAdmin : String → Except String Claims := fun t =>
  if t == "tok" then .ok { id := "u1", role := "admin", name := "John" }
  else .error "Invalid token"

/-- Fixture admin account. -/
def wU1 : User :=
  { id := "u1", name := "John", email := "john@x", role := "admin"
    isActive := true, isDeleted := false }

/-- Fixture user account. -/
def wU2 : User :=
  { id := "u2", name := "Jane", email := "jane@x", role := "user"
    isActive := true, isDeleted := false }

/-- Fixture active edge u1 → u2. -/
def wF1 : Follow :=
  { id := "f1", follower := "u1", following := "u2", created := 1
    updatedAt := none, isDeleted := false }

/-- Fixture post by u2. -/
def wPost2 : Post :=
  { id := "p2", author := "u2", content := "b", created := 5
    updatedAt := 5, isDeleted := false }

/-- Empty stores. -/
def wStEmpty : St := { users := [], posts := [], follows := [] }

/-- Store holding only `wPost2`. -/
def wStP2 : St := { users := [], posts := [wPost2], follows := [] }

/-- Store with both accounts and the u1 → u2 edge. -/
def wStFollow : St := { users := [wU1, wU2], posts := [], follows := [wF1] }

/-- Active edge whose follower account "u9" has no user record. -/
def wFDangIn : Follow :=
  { id := "f9", follower := "u9", following := "u1", created := 2
    updatedAt := none, isDeleted := false }

/-- Active edge whose followed account "u9" has no user record. -/
def wFDangOut : Follow :=
  { id := "f8", follower := "u1", following := "u9", created := 2
    updatedAt := none, isDeleted := false }

/-- Store with a dangling incoming edge for "u1". -/
def wStDangIn : St := { users := [wU1, wU2], posts := [], follows := [wFDangIn] }

/-- Store with a dangling outgoing edge for "u1". -/
def wStDangOut : St := { users := [wU1, wU2], posts := [], follows := [wFDangOut] }

/-- Soft-deleted post by the followed account "u2". -/
def wPostDel : Post :=
  { id := "p1", author := "u2", content := "a", created := 5
    updatedAt := 5, isDeleted := true }

/-- Store whose only post is soft-deleted, while u1 follows its author. -/
def wStDelFeed : St := { users := [wU1, wU2], posts := [wPostDel], follows := [wF1] }

/-- Active post "p1" with the same timestamp as `wPostT2`. -/
def wPostT1 : Post :=
  { id := "p1", author := "u2", content := "a", created := 5
    updatedAt := 5, isDeleted := false }

/-- Active post "p2" with the same timestamp as `wPostT1`. -/
def wPostT2 : Post :=
  { id := "p2", author := "u2", content := "b", created := 5
    updatedAt := 5, isDeleted := false }

/-- Store with two equal-timestamp posts by the followed account. -/
def wStTie : St := { users := [wU1, wU2], posts := [wPostT1, wPostT2], follows := [wF1] }

/-- The edge `wF1` after the soft delete at time 5. -/
def wF1Del : Follow :=
  { id := "f1", follower := "u1", following := "u2", created := 1
    updatedAt := some 5, isDeleted := true }

/-- `wStFollow` after u1 unfollows u2 at time 5. -/
def wStUnfollowed : St := { users := [wU1, wU2], posts := [], follows := [wF1Del] }

/-! ## Helper lemmas -/

/-- Successful `authorize` with the empty roles list decomposes into a
successful extraction and a successful verification. -/
lemma authorize_nil_ok {verify : String → Except String Claims}
    {header : Option String} {pr : Principal}
    (h : authorize [] verify header = .ok pr) :
    ∃ tok c, extractTokenFromHeader header = .ok tok ∧ verify tok = .ok c ∧
      pr = mkPrincipal c := by
  unfold authorize at h
  cases hex : extractTokenFromHeader header with
  | error e => rw [hex] at h; exact absurd h (by simp)
  | ok tok =>
    rw [hex] at h
    dsimp only at h
    cases hver : verify tok with
    | error e => rw [hver] at h; exact absurd h (by simp)
    | ok c =>
      rw [hver] at h
      simp at h
      exact ⟨tok, c, rfl, hver, h.symm⟩

/-- Evaluation of `authorize` once extraction and verification are
known to succeed: only the role check remains. -/
lemma authorize_eval (roles : List String) {verify : String → Except String Claims}
    {header : Option String} {tok : String} {c : Claims}
    (hex : extractTokenFromHeader header = .ok tok)
    (hver : verify tok = .ok c) :
    authorize roles verify header
      = if roles.length > 0 && !(roles.contains c.role) then
          .error (.insufficientPermissions roles c.role)
        else .ok (mkPrincipal c) := by
  unfold authorize
  rw [hex]
  dsimp only
  rw [hver]

/-- A successful `find?` guarantees the soft-delete helper fires on the
same (first matching) post. -/
lemma softDeleteFirstPost_of_find? {pr : Post → Bool} {l : List Post} {p : Post}
    (now : Nat) (h : l.find? pr = some p) :
    ∃ l', softDeleteFirstPost pr now l = some (p, l') := by
  induction l with
  | nil => simp at h
  | cons q rest ih =>
    rw [List.find?_cons] at h
    by_cases hq : pr q
    · simp only [hq] at h
      cases h
      exact ⟨{ p with isDeleted := true, updatedAt := now } :: rest,
        by simp [softDeleteFirstPost, hq]⟩
    · simp only [Bool.not_eq_true] at hq
      simp only [hq] at h
      obtain ⟨l', hl'⟩ := ih h
      exact ⟨q :: l', by simp [softDeleteFirstPost, hq, hl']⟩

/-- A failing `followUser` leaves the stores untouched. -/
lemma followUser_error_state {a b : String} {now : Nat} {s : St} {e : ApiError}
    (h : (followUser a b now s).1 = .error e) : (followUser a b now s).2 = s := by
  unfold followUser at h ⊢
  by_cases hab : (a == b) = true
  · simp [hab]
  · simp only [Bool.not_eq_true] at hab
    simp only [hab] at h ⊢
    cases hfu : findActiveUser b s with
    | none => simp [hfu]
    | some u =>
      simp only [hfu] at h ⊢
      by_cases hdup : (s.follows.find? (isActivePair a b)).isSome = true
      · simp [hdup]
      · simp only [Bool.not_eq_true] at hdup
        simp only [hdup] at h
        simp at h

/-- A failing `unfollowUser` leaves the stores untouched. -/
lemma unfollowUser_error_state {a b : String} {now : Nat} {s : St} {e : ApiError}
    (h : (unfollowUser a b now s).1 = .error e) : (unfollowUser a b now s).2 = s := by
  unfold unfollowUser at h ⊢
  by_cases hab : (a == b) = true
  · simp [hab]
  · simp only [Bool.not_eq_true] at hab
    simp only [hab] at h ⊢
    cases hfu : findActiveUser b s with
    | none => simp [hfu]
    | some u =>
      simp only [hfu] at h ⊢
      cases hsd : softDeleteFirstFollow (isActivePair a b) now s.follows with
      | none => simp [hsd]
      | some r =>
        simp only [hsd] at h
        simp at h

/-- A failing `createPostPipeline` leaves the stores untouched. -/
lemma createPostPipeline_error_state {user : Principal} {content : String}
    {now : Nat} {s : St} {e : ApiError}
    (h : (createPostPipeline user content now s).1 = .error e) :
    (createPostPipeline user content now s).2 = s := by
  unfold createPostPipeline at h ⊢
  cases hv : validateCreatePost content with
  | some err => simp [hv]
  | none =>
    simp only [hv] at h
    simp [createPost] at h

/-- A failing `deletePostRoute` leaves the stores untouched. -/
lemma deletePostRoute_error_state {verify : String → Except String Claims}
    {header : Option String} {id : String} {now : Nat} {s : St} {e : ApiError}
    (h : (deletePostRoute verify header id now s).1 = .error e) :
    (deletePostRoute verify header id now s).2 = s := by
  unfold deletePostRoute at h ⊢
  cases hg : authorize ["admin"] verify header with
  | error err => simp [hg]
  | ok user =>
    simp only [hg] at h ⊢
    cases hv : validatePostId id with
    | some err => simp [hv]
    | none =>
      simp only [hv] at h ⊢
      unfold deletePost at h ⊢
      cases hsd : softDeleteFirstPost (fun p => p.id == id && !p.isDeleted) now s.posts with
      | none => simp [hsd]
      | some r =>
        simp only [hsd] at h ⊢
        by_cases hperm : (user.role != "admin" && r.1.author != user.id) = true
        · simp [hperm]
        · simp only [Bool.not_eq_true] at hperm
          simp only [hperm] at h
          simp at h

/-- C2: every list-returning operation — the posts list, the followers
list and the following list — fails with `InvalidPagination` (status
400) on any input with page < 1 or limit < 1, before any data access
(the result does not depend on the stores).  The followers/following
bound check lives in the spec-modelled `followQueryValidate`. -/
theorem c2_invalid_pagination_guard (page limit : Int) (author : Option String)
    (sortOrder uid : String) (s : St) (h : page < 1 ∨ limit < 1) :
    getAllPosts page limit author sortOrder s = .error .invalidPagination
    ∧ getFollowersRoute uid page limit s = .error .invalidPagination
    ∧ getFollowingRoute uid page limit s = .error .invalidPagination
    ∧ statusOf .invalidPagination = 400 := by
  have hmin : page < 1 ∨ min limit 50 < 1 := by
    rcases h with h | h
    · exact .inl h
    · exact .inr (lt_of_le_of_lt (min_le_left _ _) h)
  have hcond : (decide (page < 1) || decide (min limit 50 < 1)) = true := by
    rcases hmin with h' | h' <;> simp [h']
  have hval : followQueryValidate page limit = some .invalidPagination := by
    have : (decide (page < 1) || decide (limit < 1)) = true := by
      rcases h with h' | h' <;> simp [h']
    simp [followQueryValidate, this]
  refine ⟨?_, ?_, ?_, rfl⟩
  · rcases hmin with h' | h' <;> simp [getAllPosts, h']
  · simp [getFollowersRoute, hval]
  · simp [getFollowingRoute, hval]

/-- Closed instance of `c2_invalid_pagination_guard` at page 0. -/
theorem c2_invalid_pagination_guard_witness :
    getAllPosts 0 10 none "desc" wStFollow = .error .invalidPagination
    ∧ getFollowersRoute "u2" 0 10 wStFollow = .error .invalidPagination
    ∧ getFollowingRoute "u2" 0 10 wStFollow = .error .invalidPagination
    ∧ statusOf .invalidPagination = 400 :=
  c2_invalid_pagination_guard 0 10 none "desc" "u2" wStFollow (.inl (by decide))

/-- C9: every mutating operation (follow, unfollow, create post, delete
post) leaves the stores unchanged on every input on which it returns a
failure; in particular `follow(id,id)` and `unfollow(id,id)` fail with
the self-follow / self-unfollow errors (status 400) and leave the edge
set unchanged. -/
theorem c9_failure_leaves_state_unchanged (a b : String) (user : Principal)
    (content id : String) (now : Nat) (verify : String → Except String Claims)
    (header : Option String) (s : St) :
    (∀ e, (followUser a b now s).1 = .error e → (followUser a b now s).2 = s)
    ∧ (∀ e, (unfollowUser a b now s).1 = .error e → (unfollowUser a b now s).2 = s)
    ∧ (∀ e, (createPostPipeline user content now s).1 = .error e →
        (createPostPipeline user content now s).2 = s)
    ∧ (∀ e, (deletePostRoute verify header id now s).1 = .error e →
        (deletePostRoute verify header id now s).2 = s)
    ∧ followUser a a now s = (.error .selfFollowError, s)
    ∧ unfollowUser a a now s = (.error .selfUnfollowError, s)
    ∧ statusOf .selfFollowError = 400 ∧ statusOf .selfUnfollowError = 400 := by
  refine ⟨fun e he => followUser_error_state he,
          fun e he => unfollowUser_error_state he,
          fun e he => createPostPipeline_error_state he,
          fun e he => deletePostRoute_error_state he,
          ?_, ?_, rfl, rfl⟩
  · simp [followUser]
  · simp [unfollowUser]

/-- Closed instance of `c9_failure_leaves_state_unchanged`: a follow of
a missing user, an unfollow without an active edge, an empty-content
create, an unauthenticated delete, and the self-follow/self-unfollow
cases, all at concrete stores. -/
theorem c9_failure_leaves_state_unchanged_witness :
    ((followUser "u1" "u9" 3 wStFollow).2 = wStFollow)
    ∧ ((unfollowUser "u2" "u1" 3 wStFollow).2 = wStFollow)
    ∧ ((createPostPipeline { id := "u2", role := "user", name := "Jane" } "" 3 wStFollow).2
        = wStFollow)
    ∧ ((deletePostRoute wVerifyUser none "p2" 3 wStFollow).2 = wStFollow)
    ∧ followUser "u1" "u1" 3 wStFollow = (.error .selfFollowError, wStFollow)
    ∧ unfollowUser "u1" "u1" 3 wStFollow = (.error .selfUnfollowError, wStFollow) := by
  refine ⟨?_, ?_, ?_, ?_, ?_, ?_⟩
  · exact (c9_failure_leaves_state_unchanged "u1" "u9"
      { id := "u2", role := "user", name := "Jane" } "" "p2" 3 wVerifyUser none
      wStFollow).1 .userNotFound rfl
  · exact (c9_failure_leaves_state_unchanged "u2" "u1"
      { id := "u2", role := "user", name := "Jane" } "" "p2" 3 wVerifyUser none
      wStFollow).2.1 .notFollowing rfl
  · exact (c9_failure_leaves_state_unchanged "u1" "u9"
      { id := "u2", role := "user", name := "Jane" } "" "p2" 3 wVerifyUser none
      wStFollow).2.2.1 (.validationError "Post content cannot be empty") rfl
  · exact (c9_failure_leaves_state_unchanged "u1" "u9"
      { id := "u2", role := "user", name := "Jane" } "" "p2" 3 wVerifyUser none
      wStFollow).2.2.2.1 .authHeaderError rfl
  · exact (c9_failure_leaves_state_unchanged "u1" "u9"
      { id := "u2", role := "user", name := "Jane" } "" "p2" 3 wVerifyUser none
      wStFollow).2.2.2.2.1
  · exact (c9_failure_leaves_state_unchanged "u1" "u9"
      { id := "u2", role := "user", name := "Jane" } "" "p2" 3 wVerifyUser none
      wStFollow).2.2.2.2.2.1

/-- C10: when the authorize middleware is invoked with an empty
allowed-roles list (its default argument), the role check is skipped
entirely: every request whose bearer token extracts and verifies
successfully is authorized and has a principal `{id, role, name}`
attached, regardless of the principal's role. -/
theorem c10_authorize_empty_roles_skips_check
    (verify : String → Except String Claims) (header : Option String)
    (tok : String) (c : Claims)
    (hex : extractTokenFromHeader header = .ok tok)
    (hver : verify tok = .ok c) :
    authorize [] verify header = .ok { id := c.id, role := c.role, name := c.name } := by
  simp [authorize, hex, hver, mkPrincipal]

/-- Closed instance of `c10_authorize_empty_roles_skips_check` at a
concrete request whose token verifies to a non-admin principal. -/
theorem c10_authorize_empty_roles_skips_check_witness :
    authorize [] wVerifyUser (some "Bearer tok")
      = .ok { id := "u2", role := "user", name := "Jane" } :=
  c10_authorize_empty_roles_skips_check wVerifyUser (some "Bearer tok") "tok"
    { id := "u2", role := "user", name := "Jane" } rfl rfl

/-- C1: for every request to delete a post whose bearer token verifies
to a principal with role other than admin, the delete fails with a 403
permission failure regardless of whether that principal authored the
post (the `requireAdmin` route gate fires before the controller's own
owner-or-admin check); for every admin principal and every id of an
existing non-deleted post (ids are `[a-zA-Z0-9_-]+`, the shape every
stored id has and the route's id schema admits), the delete succeeds and
returns the deleted post with the same id. -/
theorem c1_delete_requires_admin_role
    (verify : String → Except String Claims) (header : Option String)
    (id : String) (now : Nat) (s : St) (pr : Principal)
    (hauth : authorize [] verify header = .ok pr) :
    (pr.role ≠ "admin" →
      deletePostRoute verify header id now s
        = (.error (.insufficientPermissions ["admin"] pr.role), s)
      ∧ statusOf (.insufficientPermissions ["admin"] pr.role) = 403)
    ∧ (pr.role = "admin" → postIdWf id = true →
      ∀ p, s.posts.find? (fun q => q.id == id && !q.isDeleted) = some p →
      ∃ s', deletePostRoute verify header id now s
          = (.ok { id := p.id, author := p.author, content := p.content
                   created := p.created, deletedAt := now }, s')
        ∧ p.id = id) := by
  obtain ⟨tok, c, hex, hver, hpr⟩ := authorize_nil_ok hauth
  have hrole : pr.role = c.role := by rw [hpr]; rfl
  have heval := authorize_eval ["admin"] hex hver
  constructor
  · intro hne
    have hcr : ¬(c.role = "admin") := fun hc => hne (hrole.trans hc)
    have hgate : authorize ["admin"] verify header
        = .error (.insufficientPermissions ["admin"] c.role) := by
      rw [heval]; simp [hcr]
    refine ⟨?_, rfl⟩
    rw [hrole]
    unfold deletePostRoute
    rw [hgate]
  · intro hadmin hwf p hfind
    have hcr : c.role = "admin" := hrole.symm.trans hadmin
    have hgate : authorize ["admin"] verify header = .ok (mkPrincipal c) := by
      rw [heval]; simp [hcr]
    have hattr := List.find?_some hfind
    rw [Bool.and_eq_true] at hattr
    have hid : p.id = id := beq_iff_eq.mp hattr.1
    obtain ⟨l', hsd⟩ := softDeleteFirstPost_of_find? now hfind
    refine ⟨{ s with posts := l' }, ?_, hid⟩
    unfold deletePostRoute
    rw [hgate]
    dsimp only
    have hval : validatePostId id = none := by simp [validatePostId, hwf]
    rw [hval]
    dsimp only
    unfold deletePost
    rw [hsd]
    dsimp only
    have hif : ((mkPrincipal c).role != "admin" && p.author != (mkPrincipal c).id) = false := by
      simp [mkPrincipal, hcr]
    rw [hif]
    simp

/-- Closed instance of `c1_delete_requires_admin_role`: a user-role
token is refused with 403, an admin-role token deletes post `p2`. -/
theorem c1_delete_requires_admin_role_witness :
    (deletePostRoute wVerifyUser (some "Bearer tok") "p2" 9 wStEmpty
      = (.error (.insufficientPermissions ["admin"] "user"), wStEmpty))
    ∧ (∃ s', deletePostRoute wVerifyAdmin (some "Bearer tok") "p2" 9 wStP2
      = (.ok { id := "p2", author := "u2", content := "b", created := 5, deletedAt := 9 }, s')) := by
  constructor
  · exact ((c1_delete_requires_admin_role wVerifyUser (some "Bearer tok") "p2" 9 wStEmpty
      { id := "u2", role := "user", name := "Jane" } rfl).1 (by decide)).1
  · obtain ⟨s', hs', -⟩ := (c1_delete_requires_admin_role wVerifyAdmin (some "Bearer tok")
      "p2" 9 wStP2 { id := "u1", role := "admin", name := "John" } rfl).2 rfl (by decide)
      wPost2 rfl
    exact ⟨s', hs'⟩

/-- Filtering out soft-deleted posts is idempotent. -/
lemma filter_not_deleted_idem (l : List Post) :
    (l.filter (fun p => !p.isDeleted)).filter (fun p => !p.isDeleted)
      = l.filter (fun p => !p.isDeleted) := by
  simp [List.filter_filter]

/-- Looking up a non-deleted post is unaffected by erasing soft-deleted
rows first. -/
lemma find_post_erase (id : String) (l : List Post) :
    (l.filter (fun p => !p.isDeleted)).find? (fun p => p.id == id && !p.isDeleted)
      = l.find? (fun p => p.id == id && !p.isDeleted) := by
  induction l with
  | nil => rfl
  | cons q rest ih =>
    by_cases hd : q.isDeleted
    · simp [List.filter_cons, List.find?_cons, hd, ih]
    · simp only [Bool.not_eq_true] at hd
      by_cases hq : (q.id == id) = true
      · simp [List.filter_cons, List.find?_cons, hd, hq]
      · simp only [Bool.not_eq_true] at hq
        simp [List.filter_cons, List.find?_cons, hd, hq, ih]

/-- Counting active edges with an extra property is unaffected by
erasing soft-deleted rows first. -/
lemma filter_active_erase (pr : Follow → Bool) (l : List Follow) :
    (l.filter (fun f => !f.isDeleted)).filter (fun f => pr f && !f.isDeleted)
      = l.filter (fun f => pr f && !f.isDeleted) := by
  rw [List.filter_filter]
  apply List.filter_congr
  intro f _
  cases hf : f.isDeleted <;> simp

/-- C3 (code bug): an active follow edge whose counterpart account has
no user record makes the followers / following query fail with the 500
internal error, instead of being silently excluded as both the spec and
the controller's own `.filter(f => f.follower)` comment intend: the JS
map dereferences `follower.id` on `undefined` before that filter runs. -/
theorem c3_unresolved_counterpart_crashes_query :
    getFollowers "u1" 1 10 wStDangIn = .error .getFollowersInternalError
    ∧ statusOf .getFollowersInternalError = 500
    ∧ wStDangIn.follows.all (fun f => !f.isDeleted) = true
    ∧ findActiveUser "u9" wStDangIn = none
    ∧ getFollowing "u1" 1 10 wStDangOut = .error .getFollowingInternalError
    ∧ statusOf .getFollowingInternalError = 500 :=
  ⟨rfl, rfl, rfl, rfl, rfl, rfl⟩

/-- C4 counterexample: the feed aggregation pipeline applies no
`isDeleted` filter, so a soft-deleted post of a followed author is
returned: in `wStDelFeed` every stored post is soft-deleted, yet the
feed for "u1" still lists post "p1". -/
theorem c4_feed_returns_soft_deleted_cex :
    (getFollowingsPosts "u1" wStDelFeed).map (fun e => e.postId) = ["p1"]
    ∧ wStDelFeed.posts.all (fun p => p.isDeleted) = true :=
  ⟨rfl, rfl⟩

/-- C4 as amended: the posts list, the post-by-id lookup and the follow
stats are blind to soft-deleted rows — erasing those rows from the store
changes none of their results (while the rows do remain in the store:
the delete operations only flip `isDeleted`).  The feed aggregation is
excluded: it applies no `isDeleted` filter (see the counterexample). -/
theorem c4_soft_deleted_invisible_to_reads (s : St) (page limit : Int)
    (author : Option String) (sortOrder id uid : String) :
    getAllPosts page limit author sortOrder (erasePostsDeleted s)
      = getAllPosts page limit author sortOrder s
    ∧ getPostById id (erasePostsDeleted s) = getPostById id s
    ∧ getFollowStats uid (eraseFollowsDeleted s) = getFollowStats uid s := by
  refine ⟨?_, ?_, ?_⟩
  · unfold getAllPosts
    dsimp only [erasePostsDeleted]
    rw [filter_not_deleted_idem]
  · unfold getPostById
    dsimp only [erasePostsDeleted]
    rw [find_post_erase]
  · unfold getFollowStats
    dsimp only [eraseFollowsDeleted, findActiveUser]
    rw [filter_active_erase (fun f => f.following == uid),
        filter_active_erase (fun f => f.follower == uid)]

/-- C6 counterexample: a whitespace-only raw content (one space) passes
the Joi schema — which measures the raw, untrimmed string — and the
create succeeds, storing the empty trimmed content, although the
trimmed length 0 lies outside 1..1000. -/
theorem c6_whitespace_content_accepted_cex :
    createPostPipeline { id := "u2", role := "user", name := "Jane" } " " 7 wStEmpty
      = (.ok { id := "p" ++ toString 7, author := "u2", content := ""
               created := 7, updatedAt := 7, isDeleted := false },
         { users := [], follows := []
           posts := [{ id := "p" ++ toString 7, author := "u2", content := ""
                       created := 7, updatedAt := 7, isDeleted := false }] })
    ∧ (jsTrim " ").length = 0 :=
  ⟨rfl, rfl⟩

/-- C6 as amended: creating a post succeeds if and only if the raw
(untrimmed) content length lies in 1..1000; on success the stored
content is the trimmed string and the post carries the fresh id
`p<now>` and the creation timestamps; an empty raw content fails with
the empty-content validation error and a raw content longer than 1000
characters fails with the too-long validation error. -/
theorem c6_create_post_raw_length_rules (user : Principal) (content : String)
    (now : Nat) (s : St) :
    (1 ≤ content.length → content.length ≤ 1000 →
      ∃ p : Post, createPostPipeline user content now s
          = (.ok p, { s with posts := s.posts ++ [p] })
        ∧ p.content = jsTrim content ∧ p.id = "p" ++ toString now
        ∧ p.author = user.id ∧ p.created = now ∧ p.updatedAt = now
        ∧ p.isDeleted = false)
    ∧ (content.length = 0 →
      createPostPipeline user content now s
        = (.error (.validationError "Post content cannot be empty"), s))
    ∧ (1000 < content.length →
      createPostPipeline user content now s
        = (.error (.validationError "Post content cannot exceed 1000 characters"), s)) := by
  refine ⟨?_, ?_, ?_⟩
  · intro h1 h2
    have hz : (content.length == 0) = false := by
      simp only [beq_eq_false_iff_ne, ne_eq]
      omega
    have hl : (content.length > 1000) = False := by
      simp only [eq_iff_iff, iff_false, not_lt]
      exact h2
    refine ⟨{ id := "p" ++ toString now, author := user.id, content := jsTrim content
              created := now, updatedAt := now, isDeleted := false },
            ?_, rfl, rfl, rfl, rfl, rfl, rfl⟩
    simp [createPostPipeline, validateCreatePost, hz, hl, createPost]
  · intro h0
    simp [createPostPipeline, validateCreatePost, h0]
  · intro hgt
    have hz : (content.length == 0) = false := by
      simp only [beq_eq_false_iff_ne, ne_eq]
      omega
    simp [createPostPipeline, validateCreatePost, hz, hgt]

/-- Closed instance of `c6_create_post_raw_length_rules` at the three
branches: content "hi" (accepted), "" (empty) and a 1001-character
string (too long). -/
theorem c6_create_post_raw_length_rules_witness :
    (∃ p : Post, createPostPipeline { id := "u2", role := "user", name := "Jane" }
        "hi" 7 wStEmpty = (.ok p, { wStEmpty with posts := wStEmpty.posts ++ [p] })
      ∧ p.content = jsTrim "hi")
    ∧ createPostPipeline { id := "u2", role := "user", name := "Jane" } "" 7 wStEmpty
        = (.error (.validationError "Post content cannot be empty"), wStEmpty)
    ∧ createPostPipeline { id := "u2", role := "user", name := "Jane" }
        (String.mk (List.replicate 1001 'a')) 7 wStEmpty
        = (.error (.validationError "Post content cannot exceed 1000 characters"), wStEmpty) := by
  refine ⟨?_, ?_, ?_⟩
  · obtain ⟨p, hp, hc, -⟩ := (c6_create_post_raw_length_rules
      { id := "u2", role := "user", name := "Jane" } "hi" 7 wStEmpty).1
      (by decide) (by decide)
    exact ⟨p, hp, hc⟩
  · exact (c6_create_post_raw_length_rules
      { id := "u2", role := "user", name := "Jane" } "" 7 wStEmpty).2.1 rfl
  · exact (c6_create_post_raw_length_rules
      { id := "u2", role := "user", name := "Jane" }
      (String.mk (List.replicate 1001 'a')) 7 wStEmpty).2.2
      (by rw [String.length_mk, List.length_replicate]; omega)

/-- C5 counterexample: the feed pipeline sorts only on `created`; no
postId tie-break is applied.  In `wStTie` posts "p1" and "p2" share the
timestamp; the feed returns them in store order "p1", "p2", although the
claimed tie-break by postId descending would put "p2" (the greater id)
first. -/
theorem c5_no_postid_tiebreak_cex :
    (getFollowingsPosts "u1" wStTie).map (fun e => e.postId) = ["p1", "p2"]
    ∧ (getFollowingsPosts "u1" wStTie).map (fun e => e.created) = [5, 5]
    ∧ strLt "p1" "p2" = true :=
  ⟨rfl, rfl, by decide⟩

/-- C5 as amended: for every viewer the feed returns at most 10 entries;
every entry comes from a stored post whose author lies in the viewer's
followed set (as read off the follow store by the pipeline's `$match`
stage); entries are non-increasing by `created` (no further tie-break is
applied — equal-timestamp entries keep the order in which the pipeline
produced them); and a viewer following nobody gets the empty sequence,
not an error. -/
theorem c5_feed_shape (viewer : String) (s : St) :
    (getFollowingsPosts viewer s).length ≤ 10
    ∧ (∀ e, e ∈ getFollowingsPosts viewer s →
        ∃ p, p ∈ s.posts ∧ p.id = e.postId ∧ p.created = e.created ∧
          p.author ∈ followedSet viewer s)
    ∧ List.Sorted feedDesc (getFollowingsPosts viewer s)
    ∧ (followedSet viewer s = [] → getFollowingsPosts viewer s = []) := by
  refine ⟨?_, ?_, ?_, ?_⟩
  · simp only [getFollowingsPosts, List.length_take]
    exact min_le_left _ _
  · intro e he
    simp only [getFollowingsPosts] at he
    have he1 := List.mem_of_mem_take he
    have he2 := (List.perm_insertionSort feedDesc _).mem_iff.mp he1
    rw [List.mem_flatMap] at he2
    obtain ⟨p, hp, hmem⟩ := he2
    rw [List.mem_map] at hmem
    obtain ⟨u, hu, hue⟩ := hmem
    rw [List.mem_flatMap] at hp
    obtain ⟨f, hf, hpf⟩ := hp
    rw [List.mem_filter] at hpf
    obtain ⟨hps, hpa⟩ := hpf
    refine ⟨p, hps, ?_, ?_, ?_⟩
    · rw [← hue]
    · rw [← hue]
    · rw [List.mem_filter] at hu
      unfold followedSet
      rw [List.mem_map]
      exact ⟨f, hf, (beq_iff_eq.mp hpa).symm⟩
  · simp only [getFollowingsPosts]
    exact List.Pairwise.sublist (List.take_sublist _ _)
      (List.sorted_insertionSort feedDesc _)
  · intro hF
    unfold followedSet at hF
    rw [List.map_eq_nil_iff] at hF
    simp [getFollowingsPosts, hF]

/-- Closed instance of `c5_feed_shape`: the membership part at the
first entry of the `wStTie` feed and the empty-followed-set part at the
empty store. -/
theorem c5_feed_shape_witness :
    (∃ p, p ∈ wStTie.posts ∧ p.id = "p1" ∧ p.created = 5 ∧
      p.author ∈ followedSet "u1" wStTie)
    ∧ getFollowingsPosts "u1" wStEmpty = [] := by
  constructor
  · exact (c5_feed_shape "u1" wStTie).2.1
      { postId := "p1", content := "a", created := 5, authorName := "Jane" } (by decide)
  · exact (c5_feed_shape "u1" wStEmpty).2.2.2 rfl

/-- Structure of a successful soft delete: the store decomposes around
the first matching edge, which is replaced by its deactivated copy. -/
lemma softDeleteFirstFollow_eq_some {p : Follow → Bool} {now : Nat}
    {l l' : List Follow} {f : Follow}
    (h : softDeleteFirstFollow p now l = some (f, l')) :
    ∃ pre post, l = pre ++ f :: post
      ∧ p f = true
      ∧ l' = pre ++ ({ f with isDeleted := true, updatedAt := some now }) :: post
      ∧ ∀ g ∈ pre, p g = false := by
  induction l generalizing l' with
  | nil => simp [softDeleteFirstFollow] at h
  | cons g rest ih =>
    unfold softDeleteFirstFollow at h
    by_cases hg : p g = true
    · simp only [hg, if_true, Option.some.injEq, Prod.mk.injEq] at h
      obtain ⟨hgf, hl'⟩ := h
      subst hgf
      exact ⟨[], rest, by simp, hg, by simp [← hl'], by simp⟩
    · simp only [Bool.not_eq_true] at hg
      simp only [hg, Bool.false_eq_true, if_false] at h
      cases hrec : softDeleteFirstFollow p now rest with
      | none => rw [hrec] at h; simp at h
      | some r =>
        rw [hrec] at h
        simp only [Option.map_some', Option.some.injEq, Prod.mk.injEq] at h
        obtain ⟨pre, post, hdec, hpf, hrl, hpre⟩ := @ih r.2 (by rw [hrec, ← h.1])
        refine ⟨g :: pre, post, by simp [hdec], hpf, ?_, ?_⟩
        · rw [← h.2, hrl]; rfl
        · intro x hx
          rcases List.mem_cons.mp hx with hx | hx
          · rw [hx]; exact hg
          · exact hpre x hx

/-- If no edge matches, the soft delete helper returns `none`. -/
lemma softDeleteFirstFollow_eq_none {p : Follow → Bool} {now : Nat}
    {l : List Follow} (h : ∀ g ∈ l, p g = false) :
    softDeleteFirstFollow p now l = none := by
  induction l with
  | nil => rfl
  | cons g rest ih =>
    unfold softDeleteFirstFollow
    rw [h g (List.mem_cons_self g rest)]
    simp [ih (fun x hx => h x (List.mem_cons_of_mem g hx))]

/-- The deactivated copy of an edge never matches an active-pair
predicate. -/
lemma isActivePair_deactivated (x y : String) (f : Follow) (now : Nat) :
    isActivePair x y { f with isDeleted := true, updatedAt := some now } = false := by
  simp [isActivePair]

/-- C7: if `unfollow(a,b)` succeeds then the first active edge for the
pair — the unique one, under the at-most-one-active-edge hypothesis — is
soft-deleted in place, with isDeleted set to true and updatedAt set to
the current time, the edge
row remains in the store (same length, same position), `isFollowing(a,b)`
becomes false, and an immediately repeated unfollow fails with
`NotFollowing`. -/
theorem c7_unfollow_soft_deletes_edge (a b : String) (now : Nat) (s : St)
    (f : Follow) (s' : St)
    (h : unfollowUser a b now s = (.ok f, s'))
    (huniq : s.follows.countP (isActivePair a b) ≤ 1) :
    (∃ pre post, s.follows = pre ++ f :: post
      ∧ isActivePair a b f = true
      ∧ s'.follows = pre ++ ({ f with isDeleted := true, updatedAt := some now }) :: post)
    ∧ s'.users = s.users ∧ s'.posts = s.posts
    ∧ s'.follows.length = s.follows.length
    ∧ s'.follows.countP (isActivePair a b) = 0
    ∧ (∃ r, checkFollowStatus a b s' = .ok r ∧ r.isFollowing = false)
    ∧ (∀ now2, unfollowUser a b now2 s' = (.error .notFollowing, s')) := by
  unfold unfollowUser at h
  by_cases hab : (a == b) = true
  · simp [hab] at h
  · simp only [Bool.not_eq_true] at hab
    simp only [hab, Bool.false_eq_true, if_false] at h
    cases hfu : findActiveUser b s with
    | none => rw [hfu] at h; simp at h
    | some u =>
      rw [hfu] at h
      dsimp only at h
      cases hsd : softDeleteFirstFollow (isActivePair a b) now s.follows with
      | none => rw [hsd] at h; simp at h
      | some r =>
        rw [hsd] at h
        simp only [Prod.mk.injEq, Except.ok.injEq] at h
        obtain ⟨hrf, hs'⟩ := h
        obtain ⟨pre, post, hdec, hpf, hrl, hpre⟩ :=
          @softDeleteFirstFollow_eq_some _ now s.follows r.2 r.1 (by rw [hsd])
        rw [hrf] at hdec hpf hrl
        have hfollows : s'.follows = pre ++
            ({ f with isDeleted := true, updatedAt := some now }) :: post := by
          rw [← hs', hrl]
        have husers : s'.users = s.users := by rw [← hs']
        have hposts : s'.posts = s.posts := by rw [← hs']
        have hcount0 : s'.follows.countP (isActivePair a b) = 0 := by
          have hold : s.follows.countP (isActivePair a b)
              = pre.countP (isActivePair a b) + post.countP (isActivePair a b) + 1 := by
            rw [hdec, List.countP_append, List.countP_cons, hpf]
            simp
            omega
          have hzero : pre.countP (isActivePair a b) = 0
              ∧ post.countP (isActivePair a b) = 0 := by
            constructor <;> omega
          rw [hfollows, List.countP_append, List.countP_cons,
              isActivePair_deactivated]
          simp [hzero.1, hzero.2]
        refine ⟨⟨pre, post, hdec, hpf, hfollows⟩, husers, hposts, ?_, hcount0, ?_, ?_⟩
        · rw [hfollows, hdec]
          simp
        · refine ⟨{ isFollowing := false, targetUser := u }, ?_, rfl⟩
          unfold checkFollowStatus
          unfold findActiveUser
          rw [husers]
          have hfu' : s.users.find? (fun v => v.id == b && !v.isDeleted) = some u := hfu
          rw [hfu']
          have hany : s'.follows.any (isActivePair a b) = false := by
            rw [List.any_eq_false]
            intro x hx
            have := List.countP_eq_zero.mp hcount0 x hx
            simpa using this
          rw [hany]
        · intro now2
          unfold unfollowUser
          simp only [hab, Bool.false_eq_true, if_false]
          have hfu2 : findActiveUser b s' = some u := by
            unfold findActiveUser
            rw [husers]
            exact hfu
          rw [hfu2]
          dsimp only
          have hnone : softDeleteFirstFollow (isActivePair a b) now2 s'.follows = none := by
            apply softDeleteFirstFollow_eq_none
            intro g hg
            have := List.countP_eq_zero.mp hcount0 g hg
            simpa using this
          rw [hnone]

/-- Closed instance of `c7_unfollow_soft_deletes_edge` at the store
`wStFollow`, where u1 actively follows u2 through edge f1. -/
theorem c7_unfollow_soft_deletes_edge_witness :
    (∃ pre post, wStFollow.follows = pre ++ wF1 :: post
      ∧ isActivePair "u1" "u2" wF1 = true
      ∧ wStUnfollowed.follows = pre ++
          ({ wF1 with isDeleted := true, updatedAt := some 5 }) :: post)
    ∧ wStUnfollowed.users = wStFollow.users ∧ wStUnfollowed.posts = wStFollow.posts
    ∧ wStUnfollowed.follows.length = wStFollow.follows.length
    ∧ wStUnfollowed.follows.countP (isActivePair "u1" "u2") = 0
    ∧ (∃ r, checkFollowStatus "u1" "u2" wStUnfollowed = .ok r ∧ r.isFollowing = false)
    ∧ (∀ now2, unfollowUser "u1" "u2" now2 wStUnfollowed
        = (.error .notFollowing, wStUnfollowed)) :=
  c7_unfollow_soft_deletes_edge "u1" "u2" 5 wStFollow wF1 wStUnfollowed rfl (by decide)

/-- C8: from a state in which no active edge is a self-follow and each
(follower, following) pair has at most one active edge, both mutating
operations of the follow store preserve both invariants (every read
query is a pure function of the state and returns no modified store, so
preservation there is by construction). -/
theorem c8_follow_invariants_preserved (a b : String) (now : Nat) (s : St)
    (h1 : NoSelfActive s.follows) (h2 : AtMostOneActivePair s.follows) :
    (NoSelfActive (followUser a b now s).2.follows
      ∧ AtMostOneActivePair (followUser a b now s).2.follows)
    ∧ (NoSelfActive (unfollowUser a b now s).2.follows
      ∧ AtMostOneActivePair (unfollowUser a b now s).2.follows) := by
  constructor
  · unfold followUser
    by_cases hab : (a == b) = true
    · simpa [hab] using ⟨h1, h2⟩
    · simp only [Bool.not_eq_true] at hab
      simp only [hab, Bool.false_eq_true, if_false]
      cases hfu : findActiveUser b s with
      | none => exact ⟨h1, h2⟩
      | some u =>
        dsimp only
        by_cases hdup : (s.follows.find? (isActivePair a b)).isSome = true
        · simpa [hdup] using ⟨h1, h2⟩
        · simp only [Bool.not_eq_true] at hdup
          simp only [hdup, Bool.false_eq_true, if_false]
          have hne : a ≠ b := by
            intro he
            rw [he] at hab
            simp at hab
          constructor
          · intro f hf hdel
            rcases List.mem_append.mp hf with hf | hf
            · exact h1 f hf hdel
            · have : f = { id := "f" ++ toString (s.follows.length + 1)
                           follower := a, following := b, created := now
                           updatedAt := none, isDeleted := false } := by
                simpa using hf
              rw [this]
              exact hne
          · intro x y
            rw [List.countP_append, List.countP_cons, List.countP_nil]
            by_cases hxy : isActivePair x y
                { id := "f" ++ toString (s.follows.length + 1)
                  follower := a, following := b, created := now
                  updatedAt := none, isDeleted := false } = true
            · have hax : a = x ∧ b = y := by
                simp [isActivePair] at hxy
                exact hxy
              have hnone : s.follows.find? (isActivePair a b) = none :=
                Option.not_isSome_iff_eq_none.mp (by rw [hdup]; simp)
              have hzero : s.follows.countP (isActivePair x y) = 0 := by
                rw [List.countP_eq_zero]
                intro g hg
                have := List.find?_eq_none.mp hnone g hg
                rw [← hax.1, ← hax.2]
                exact this
              rw [hzero, hxy]
              simp
            · simp only [Bool.not_eq_true] at hxy
              rw [hxy]
              have := h2 x y
              simp
              omega
  · unfold unfollowUser
    by_cases hab : (a == b) = true
    · simpa [hab] using ⟨h1, h2⟩
    · simp only [Bool.not_eq_true] at hab
      simp only [hab, Bool.false_eq_true, if_false]
      cases hfu : findActiveUser b s with
      | none => exact ⟨h1, h2⟩
      | some u =>
        dsimp only
        cases hsd : softDeleteFirstFollow (isActivePair a b) now s.follows with
        | none => exact ⟨h1, h2⟩
        | some r =>
          dsimp only
          obtain ⟨pre, post, hdec, hpf, hrl, hpre⟩ :=
            @softDeleteFirstFollow_eq_some _ now s.follows r.2 r.1 (by rw [hsd])
          constructor
          · intro g hg hdel
            rw [hrl] at hg
            rcases List.mem_append.mp hg with hg | hg
            · exact h1 g (by rw [hdec]; exact List.mem_append_left _ hg) hdel
            · rcases List.mem_cons.mp hg with hg | hg
              · rw [hg] at hdel
                simp at hdel
              · exact h1 g
                  (by rw [hdec]
                      exact List.mem_append_right _ (List.mem_cons_of_mem _ hg)) hdel
          · intro x y
            rw [hrl, List.countP_append, List.countP_cons, isActivePair_deactivated]
            have hold := h2 x y
            rw [hdec, List.countP_append, List.countP_cons] at hold
            simp only [Bool.false_eq_true, if_false]
            omega

/-- Closed instance of `c8_follow_invariants_preserved` at the store
`wStFollow`, whose single active edge u1 → u2 satisfies both
invariants. -/
theorem c8_follow_invariants_preserved_witness :
    (NoSelfActive (followUser "u2" "u1" 3 wStFollow).2.follows
      ∧ AtMostOneActivePair (followUser "u2" "u1" 3 wStFollow).2.follows)
    ∧ (NoSelfActive (unfollowUser "u2" "u1" 3 wStFollow).2.follows
      ∧ AtMostOneActivePair (unfollowUser "u2" "u1" 3 wStFollow).2.follows) := by
  refine c8_follow_invariants_preserved "u2" "u1" 3 wStFollow ?_ ?_
  · intro f hf _
    have : f = wF1 := by simpa [wStFollow] using hf
    rw [this]
    decide
  · intro a b
    have : wStFollow.follows.countP (isActivePair a b)
        = if isActivePair a b wF1 = true then 1 else 0 := by
      simp [wStFollow, List.countP_cons]
    rw [this]
    split <;> omega

end Social
